import Mathlib

/-!
Shallow embedding of the zircon fdio remote-io (zxrio) client layer:
wire-message validation, the transaction engine, the chunked read/write
loops, close, the open/connect negotiators and the ioctl reply path.
External transport effects (channel read/write/call, handle close) are
modelled by explicit oracle inputs and by returning the list of handle
values passed to the close primitive.
-/

/-- Modelled from the spec: maximum payload chunk size (`FDIO_CHUNK_SIZE`,
from the fdio headers, which are not part of the sources here). -/
def FDIO_CHUNK_SIZE : Nat := 8192

/-- Modelled from the spec: maximum inline handle count (`FDIO_MAX_HANDLES`). -/
def FDIO_MAX_HANDLES : Nat := 3

/-- Modelled from the spec: size in bytes of the fixed message header
(`ZXRIO_HDR_SZ`). -/
def ZXRIO_HDR_SZ : Nat := 48

/-- Modelled from the spec: maximum ioctl input length (`FDIO_IOCTL_MAX_INPUT`). -/
def FDIO_IOCTL_MAX_INPUT : Nat := 1024

/-- Modelled from the spec: hard maximum on path length (`PATH_MAX`). -/
def PATH_MAX : Nat := 4096

/-- Modelled from the spec: the canonical invalid handle value
(`ZX_HANDLE_INVALID`, i.e. 0). -/
def ZX_HANDLE_INVALID : Nat := 0

/-- Status code for success. -/
def ZX_OK : Int := 0

/-- Generic internal error sentinel. -/
def ZX_ERR_INTERNAL : Int := -1

/-- Invalid-argument error code. -/
def ZX_ERR_INVALID_ARGS : Int := -10

/-- Generic I/O error code. -/
def ZX_ERR_IO : Int := -40

/-- Bad-path error code. -/
def ZX_ERR_BAD_PATH : Int := -50

/-- Transport status distinguishing a read-phase failure of a call
from a write-phase failure. -/
def ZX_ERR_CALL_FAILED : Int := -53

/-- Modelled from the spec: the flag bit requesting a descriptive reply
(`ZX_FS_FLAG_DESCRIBE`). -/
def ZX_FS_FLAG_DESCRIBE : Nat := 8388608

/-- Modelled from the spec: op codes used by this layer. Exact numeric
values come from headers not in the sources; only distinctness and the
op-extraction arithmetic matter to the claims. -/
def ZXRIO_STATUS : Nat := 0

/-- Op code of a close request. -/
def ZXRIO_CLOSE : Nat := 1

/-- Op code of an open request. -/
def ZXRIO_OPEN : Nat := 3

/-- Op code of the asynchronous on-open description event. -/
def ZXRIO_ON_OPEN : Nat := 7

/-- Modelled from the spec: extraction of the op-code part of the op word
(`ZXRIO_OP(n)`, masking to the low 10 bits). -/
def ZXRIO_OP (n : Nat) : Nat := n % 1024

/-- Modelled from the spec: size in bytes of the describe record
(`sizeof(zxrio_describe_t)`). -/
def ZXRIO_DESCRIBE_SZ : Nat := 88

/-- Modelled from the spec: extraction of an ioctl kind from an ioctl op
word (`IOCTL_KIND(n)`, bits 20..23). -/
def IOCTL_KIND (n : Nat) : Nat := n / 1048576 % 16

/-- Ioctl kind returning no handles. -/
def IOCTL_KIND_DEFAULT : Nat := 0

/-- Ioctl kind returning one handle. -/
def IOCTL_KIND_GET_HANDLE : Nat := 1

/-- Ioctl kind returning two handles. -/
def IOCTL_KIND_GET_TWO_HANDLES : Nat := 2

/-- Ioctl kind returning three handles. -/
def IOCTL_KIND_GET_THREE_HANDLES : Nat := 3

/-- Ioctl kind sending one handle. -/
def IOCTL_KIND_SET_HANDLE : Nat := 4

/-- Ioctl kind sending two handles. -/
def IOCTL_KIND_SET_TWO_HANDLES : Nat := 5

/-- Op code of the ioctl carrying one inline handle. -/
def ZXRIO_IOCTL_1H : Nat := 9

/-- Op code of the ioctl carrying two inline handles. -/
def ZXRIO_IOCTL_2H : Nat := 10

/-- Op code of a plain ioctl request. -/
def ZXRIO_IOCTL : Nat := 8

/-- Size in bytes of one handle value (`sizeof(zx_handle_t)`). -/
def SIZEOF_ZX_HANDLE : Nat := 4

/-- The wire message `zxrio_msg_t`: fixed header (txid, op, datalen,
arg, arg2, hcount) plus the inline handle array and the payload bytes. -/
structure zxrio_msg where
  txid : Nat := 0
  op : Nat := 0
  datalen : Nat := 0
  arg : Int := 0
  arg2 : Int := 0
  hcount : Nat := 0
  handle : List Nat := []
  data : List Nat := []
deriving DecidableEq

/-- Transcription of `is_message_valid` (part_001, lines 75-81): a message
is rejected when its payload length exceeds the chunk bound or its handle
count exceeds the handle bound. -/
def is_message_valid (msg : zxrio_msg) : Bool :=
  if msg.datalen > FDIO_CHUNK_SIZE || msg.hcount > FDIO_MAX_HANDLES then
    false
  else
    true

/-- Transcription of `is_message_reply_valid` (part_001, lines 83-88):
additionally checks the wire size against the header size and the
embedded payload length, then falls through to `is_message_valid`. -/
def is_message_reply_valid (msg : zxrio_msg) (size : Nat) : Bool :=
  if size < ZXRIO_HDR_SZ || msg.datalen ≠ size - ZXRIO_HDR_SZ then
    false
  else
    is_message_valid msg

/-- Transcription of `discard_handles` (part_001, lines 90-94): the list of
handle values passed to the close primitive when discarding the first
`count` entries of the handle array. -/
def discard_handles (handles : List Nat) (count : Nat) : List Nat :=
  handles.take count

/-- C4: for every message, `is_message_valid` fails exactly when the payload
length exceeds the maximum chunk size or the handle count exceeds the
maximum handle count. The embedding is a pure function on the message, so
validation cannot mutate the message. -/
theorem msg_valid_iff (m : zxrio_msg) :
    is_message_valid m = false ↔
      (m.datalen > FDIO_CHUNK_SIZE ∨ m.hcount > FDIO_MAX_HANDLES) := by
  unfold is_message_valid
  by_cases h : m.datalen > FDIO_CHUNK_SIZE || m.hcount > FDIO_MAX_HANDLES
  · simp only [h, if_true]
    simpa using h
  · simp only [h, if_false]
    constructor
    · intro hfalse
      cases hfalse
    · intro hc
      exfalso
      rcases hc with hc | hc
      · simp only [Bool.or_eq_true, decide_eq_true_eq] at h
        exact h (Or.inl hc)
      · simp only [Bool.or_eq_true, decide_eq_true_eq] at h
        exact h (Or.inr hc)

/-- Counterexample for C3: a message whose size/length framing is exactly
consistent (wire size equal to the header size, payload length 0) is still
rejected by `is_message_reply_valid` because its handle count exceeds the
maximum, so the claimed biconditional fails. -/
theorem reply_valid_cex :
    is_message_reply_valid { hcount := 4 } ZXRIO_HDR_SZ = false ∧
      ¬ (ZXRIO_HDR_SZ < ZXRIO_HDR_SZ) ∧
      (zxrio_msg.datalen { hcount := 4 } = ZXRIO_HDR_SZ - ZXRIO_HDR_SZ) := by
  refine ⟨by decide, by decide, by decide⟩

/-- C3 (amended): `is_message_reply_valid` fails exactly when the wire size
is below the header size, or the payload-length field differs from the wire
size minus the header size, or the message fails the general validation
(payload length above the chunk bound or handle count above the handle
bound). -/
theorem reply_valid_iff (m : zxrio_msg) (size : Nat) :
    is_message_reply_valid m size = false ↔
      (size < ZXRIO_HDR_SZ ∨ m.datalen ≠ size - ZXRIO_HDR_SZ ∨
        m.datalen > FDIO_CHUNK_SIZE ∨ m.hcount > FDIO_MAX_HANDLES) := by
  unfold is_message_reply_valid is_message_valid
  split
  · next h =>
    simp only [Bool.or_eq_true, decide_eq_true_eq] at h
    constructor
    · intro _
      tauto
    · intro _
      rfl
  · next h =>
    simp only [Bool.or_eq_true, decide_eq_true_eq] at h
    push_neg at h
    split
    · next h2 =>
      simp only [Bool.or_eq_true, decide_eq_true_eq] at h2
      constructor
      · intro _
        tauto
      · intro _
        rfl
    · next h2 =>
      simp only [Bool.or_eq_true, decide_eq_true_eq] at h2
      push_neg at h2
      constructor
      · intro hf
        cases hf
      · intro hc
        exfalso
        obtain ⟨ha, hb⟩ := h
        obtain ⟨hc1, hc2⟩ := h2
        rcases hc with hc | hc | hc | hc
        · omega
        · omega
        · omega
        · omega

/-- Outcome of one `zx_channel_call` on the transport, supplied as an
oracle: the call status `r`, the out-of-band read status `rs` (meaningful
when `r` is the call-failed code), the reply bytes that land in the
message buffer, the actual byte count `dsize` and the actual received
handle count `ahcount` (written by the transport over the embedded
handle-count field). -/
structure CallOut where
  r : Int
  rs : Int := ZX_ERR_INTERNAL
  reply : zxrio_msg := {}
  dsize : Nat := 0
  ahcount : Nat := 0
deriving DecidableEq

/-- Transcription of `zxrio_txn` (part_001, lines 209-261). Returns the
status, the final message state, and the list of handle values passed to
the close primitive. The transaction id assignment is passed in as `txid`
(the atomic fetch-add on the connection counter). -/
def zxrio_txn (txid : Nat) (msg : zxrio_msg) (c : CallOut) : Int × zxrio_msg × List Nat :=
  if !(is_message_valid msg) then
    (ZX_ERR_INVALID_ARGS, msg, [])
  else
    let msg1 := { msg with txid := txid }
    if c.r < 0 then
      if c.r = ZX_ERR_CALL_FAILED then
        -- read phase failed, true status is in rs
        (c.rs, { msg1 with hcount := 0 }, [])
      else
        -- write phase failed, we must discard the handles
        (c.r, { msg1 with hcount := 0 }, discard_handles msg1.handle msg1.hcount)
    else
      -- reply bytes overwrite the message; the handle count of the transport
      -- overwrites the embedded hcount field
      let msg2 := { c.reply with hcount := c.ahcount }
      if !(is_message_reply_valid msg2 c.dsize) || (ZXRIO_OP msg2.op != ZXRIO_STATUS) then
        ( ZX_ERR_IO, { msg2 with hcount := 0 }, discard_handles msg2.handle msg2.hcount)
      else if msg2.arg < 0 then
        (msg2.arg, { msg2 with hcount := 0 }, discard_handles msg2.handle msg2.hcount)
      else
        (msg2.arg, msg2, [])

/-- Outbound message used in the counterexample for C1: it fails local
validation while carrying one live handle. -/
def txn_cex_msg : zxrio_msg :=
  { datalen := FDIO_CHUNK_SIZE + 1, hcount := 1, handle := [5] }

/-- Counterexample for C1: when the outbound message fails local
validation, `zxrio_txn` returns a failure but leaves the handle count of
the message at 1 and closes no handle, contradicting the claim that every
failure mode returns with handle count zero. -/
theorem txn_local_invalid_cex :
    (zxrio_txn 1 txn_cex_msg { r := 0 }).1 < 0 ∧
      (zxrio_txn 1 txn_cex_msg { r := 0 }).2.1.hcount = 1 ∧
      (zxrio_txn 1 txn_cex_msg { r := 0 }).2.2 = [] := by
  refine ⟨by decide, by decide, by decide⟩

/-- C1 (amended): on a locally-invalid outbound message `zxrio_txn`
returns the message untouched (handles stay with the caller, none
closed); for every transport or protocol failure mode (write phase
fails, read phase fails, reply framing or op-code invalid, reply status
negative) it returns with handle count zero and every handle it held
closed; handles remain in the message only on the success path. -/
theorem txn_handle_discipline (txid : Nat) (msg : zxrio_msg) (c : CallOut) :
    (is_message_valid msg = false →
        zxrio_txn txid msg c = (ZX_ERR_INVALID_ARGS, msg, []))
  ∧ (is_message_valid msg = true → c.r = ZX_ERR_CALL_FAILED →
        (zxrio_txn txid msg c).1 = c.rs ∧
        (zxrio_txn txid msg c).2.1.hcount = 0 ∧
        (zxrio_txn txid msg c).2.2 = [])
  ∧ (is_message_valid msg = true → c.r < 0 → c.r ≠ ZX_ERR_CALL_FAILED →
        (zxrio_txn txid msg c).1 = c.r ∧
        (zxrio_txn txid msg c).2.1.hcount = 0 ∧
        (zxrio_txn txid msg c).2.2 = discard_handles msg.handle msg.hcount)
  ∧ (is_message_valid msg = true → 0 ≤ c.r →
      (is_message_reply_valid { c.reply with hcount := c.ahcount } c.dsize = false ∨
        ZXRIO_OP c.reply.op ≠ ZXRIO_STATUS) →
        (zxrio_txn txid msg c).1 = ZX_ERR_IO ∧
        (zxrio_txn txid msg c).2.1.hcount = 0 ∧
        (zxrio_txn txid msg c).2.2 = discard_handles c.reply.handle c.ahcount)
  ∧ (is_message_valid msg = true → 0 ≤ c.r →
      is_message_reply_valid { c.reply with hcount := c.ahcount } c.dsize = true →
      ZXRIO_OP c.reply.op = ZXRIO_STATUS →
      c.reply.arg < 0 →
        (zxrio_txn txid msg c).1 = c.reply.arg ∧
        (zxrio_txn txid msg c).2.1.hcount = 0 ∧
        (zxrio_txn txid msg c).2.2 = discard_handles c.reply.handle c.ahcount)
  ∧ (is_message_valid msg = true → 0 ≤ c.r →
      is_message_reply_valid { c.reply with hcount := c.ahcount } c.dsize = true →
      ZXRIO_OP c.reply.op = ZXRIO_STATUS →
      0 ≤ c.reply.arg →
        zxrio_txn txid msg c =
          (c.reply.arg, { c.reply with hcount := c.ahcount }, [])) := by
  refine ⟨?_, ?_, ?_, ?_, ?_, ?_⟩
  · intro hv
    simp [zxrio_txn, hv]
  · intro hv hcf
    have h53 : (ZX_ERR_CALL_FAILED : Int) < 0 := by decide
    simp [zxrio_txn, hv, hcf, h53]
  · intro hv hneg hne
    simp [zxrio_txn, hv, hneg, hne]
  · intro hv hr hbad
    have hnneg : ¬ c.r < 0 := not_lt.mpr hr
    rcases hbad with hbad | hbad
    · simp [zxrio_txn, hv, hnneg, hbad]
    · by_cases hrv : is_message_reply_valid { c.reply with hcount := c.ahcount } c.dsize
      · simp [zxrio_txn, hv, hnneg, hrv, hbad]
      · simp only [Bool.not_eq_true] at hrv
        simp [zxrio_txn, hv, hnneg, hrv]
  · intro hv hr hrv hop harg
    have hnneg : ¬ c.r < 0 := not_lt.mpr hr
    simp [zxrio_txn, hv, hnneg, hrv, hop, harg]
  · intro hv hr hrv hop harg
    have hnneg : ¬ c.r < 0 := not_lt.mpr hr
    have hnarg : ¬ c.reply.arg < 0 := not_lt.mpr harg
    simp [zxrio_txn, hv, hnneg, hrv, hop, hnarg]

/-- Outbound message for the C1 witness. -/
def txnWitMsg : zxrio_msg := { op := ZXRIO_OPEN }

/-- Call oracle for the C1 witness: a well-framed successful status reply
carrying one handle. -/
def txnWitCall : CallOut :=
  { r := 0, reply := { op := ZXRIO_STATUS, arg := 5, handle := [9] },
    dsize := ZXRIO_HDR_SZ, ahcount := 1 }

/-- Witness for C1 at a concrete input: a valid message and a successful
well-framed reply keep the reply handle in the message. -/
theorem txn_handle_discipline_witness :
    zxrio_txn 7 txnWitMsg txnWitCall =
      (txnWitCall.reply.arg, { txnWitCall.reply with hcount := txnWitCall.ahcount }, []) :=
  (txn_handle_discipline 7 txnWitMsg txnWitCall).2.2.2.2.2
    (by decide) (by decide) (by decide) (by decide) (by decide)

/-- Outcome of one `zx_channel_read` on the transport, supplied as an
oracle: status `r`, the received bytes (as a message, including the
attacker-controlled embedded handle-count field), the actual byte count
`dsz`, and the authoritative out-of-band handle count of the transport. -/
structure ReadOut where
  r : Int
  received : zxrio_msg := {}
  dsz : Nat := 0
  hcount : Nat := 0
deriving DecidableEq

/-- Transcription of `zxrio_read_msg` (part_001, lines 96-114): the
embedded handle-count field is overwritten with the out-of-band count
of the transport before validation; on validation failure the received
handles (counted by the out-of-band count) are closed. On a transport
error no message state is produced. -/
def zxrio_read_msg (ro : ReadOut) : Int × Option zxrio_msg × List Nat :=
  if ro.r ≠ ZX_OK then
    (ro.r, none, [])
  else
    -- hcount intentionally received out-of-band from the message
    let msg := { ro.received with hcount := ro.hcount }
    if !(is_message_reply_valid msg ro.dsz) then
      (ZX_ERR_INVALID_ARGS, some msg, discard_handles msg.handle msg.hcount)
    else
      (ZX_OK, some msg, [])

/-- C2: the embedded handle-count field of the received bytes is dead on
the server read path — two received buffers that differ only in that
field give the identical status, message state and set of closed
handles, because the out-of-band count of the transport replaces the field
before it is ever used. -/
theorem read_msg_oob_hcount (ro : ReadOut) (c : Nat) :
    zxrio_read_msg { ro with received := { ro.received with hcount := c } } =
      zxrio_read_msg ro := by
  cases ro with
  | mk r rec dsz hc =>
    cases rec
    rfl

/-- Result of one transaction as seen by the chunked read/write loops:
the returned status word and the payload length of the reply. The reply
handles are discarded immediately by both loops and play no further
part, so they are not tracked here. -/
structure TxnRes where
  r : Int
  datalen : Nat := 0
deriving DecidableEq

/-- Final return value of the chunked loops: the transferred total when it
is nonzero, otherwise the last status (`return count ? count : r`). -/
def wret (count : Nat) (r : Int) : Int :=
  if count ≠ 0 then (count : Int) else r

/-- Transcription of the loop of `write_common` (part_001, lines 362-400),
parameterised by the per-transaction oracle: remaining length, transferred
count, last status, transactions issued so far.  Returns the final
return value and the number of transactions issued. -/
def write_go : Nat → Nat → Int → Nat → List TxnRes → Int × Nat
  | 0, count, r, n, _ => (wret count r, n)
  | _ + 1, count, r, n, [] => (wret count r, n)
  | k + 1, count, r, n, t :: os =>
      let len := k + 1
      let xfer : Nat := min len FDIO_CHUNK_SIZE
      if t.r < 0 then
        (wret count t.r, n + 1)
      else if t.r > (xfer : Int) then
        (wret count ZX_ERR_IO, n + 1)
      else
        let c := t.r.toNat
        if t.r < (xfer : Int) then
          -- stop at short read
          (wret (count + c) t.r, n + 1)
        else
          write_go (len - c) (count + c) t.r (n + 1) os

/-- Entry point of the chunked write loop over a buffer of `len` bytes. -/
def write_common (len : Nat) (os : List TxnRes) : Int × Nat :=
  write_go len 0 0 0 os

/-- Transcription of the loop of `read_common` (part_001, lines 410-449):
as `write_go`, but a status word exceeding the payload length of the reply is
also an error, and the amounts copied from the reply payload into the
output buffer are accumulated in `cs`. -/
def read_go : Nat → Nat → Int → Nat → List Nat → List TxnRes → Int × Nat × List Nat
  | 0, count, r, n, cs, _ => (wret count r, n, cs)
  | _ + 1, count, r, n, cs, [] => (wret count r, n, cs)
  | k + 1, count, r, n, cs, t :: os =>
      let len := k + 1
      let xfer : Nat := min len FDIO_CHUNK_SIZE
      if t.r < 0 then
        (wret count t.r, n + 1, cs)
      else if t.r > (t.datalen : Int) || t.r > (xfer : Int) then
        (wret count ZX_ERR_IO, n + 1, cs)
      else
        let c := t.r.toNat
        if t.r < (xfer : Int) then
          -- stop at short read
          (wret (count + c) t.r, n + 1, cs ++ [c])
        else
          read_go (len - c) (count + c) t.r (n + 1) (cs ++ [c]) os

/-- Entry point of the chunked read loop over a buffer of `len` bytes. -/
def read_common (len : Nat) (os : List TxnRes) : Int × Nat × List Nat :=
  read_go len 0 0 0 [] os


/-- The chunk schedule for a buffer of `len` bytes: the sequence of
per-transaction request sizes the loops issue when every transaction
transfers in full. -/
def chunkSched (len : Nat) : List Nat :=
  if len = 0 then []
  else min len FDIO_CHUNK_SIZE :: chunkSched (len - min len FDIO_CHUNK_SIZE)
termination_by len
decreasing_by
  have hck : 0 < FDIO_CHUNK_SIZE := by decide
  omega

/-- Oracle in which every transaction transfers the full requested amount
and reports a matching payload length. -/
def fullOracle (len : Nat) : List TxnRes :=
  (chunkSched len).map fun (c : Nat) => { r := (c : Int), datalen := c }

/-- The chunk schedule has exactly the ceiling of `len` over the chunk
size many entries. -/
theorem chunkSched_length (len : Nat) :
    (chunkSched len).length = (len + FDIO_CHUNK_SIZE - 1) / FDIO_CHUNK_SIZE := by
  induction len using Nat.strong_induction_on with
  | _ len ih =>
    rw [chunkSched]
    split
    · next h =>
      subst h
      simp [FDIO_CHUNK_SIZE]
    · next h =>
      have hpos : 0 < len := Nat.pos_of_ne_zero h
      have hck : 0 < FDIO_CHUNK_SIZE := by decide
      have ihx := ih (len - min len FDIO_CHUNK_SIZE) (by omega)
      simp only [List.length_cons, ihx]
      simp only [FDIO_CHUNK_SIZE] at hpos hck ⊢
      omega

/-- One full-transfer step of the write loop: a transaction returning
exactly the requested amount recurses on the remaining bytes. -/
theorem write_go_cons_full (k count : Nat) (r : Int) (n : Nat) (os : List TxnRes) :
    write_go (k + 1) count r n
        ({ r := ((min (k + 1) FDIO_CHUNK_SIZE : Nat) : Int),
           datalen := min (k + 1) FDIO_CHUNK_SIZE } :: os) =
      write_go (k + 1 - min (k + 1) FDIO_CHUNK_SIZE)
        (count + min (k + 1) FDIO_CHUNK_SIZE)
        ((min (k + 1) FDIO_CHUNK_SIZE : Nat) : Int) (n + 1) os := by
  have h1 : ¬ (((min (k + 1) FDIO_CHUNK_SIZE : Nat) : Int) < 0) :=
    not_lt.mpr (Int.natCast_nonneg _)
  have h2 : ¬ (((min (k + 1) FDIO_CHUNK_SIZE : Nat) : Int) >
      ((min (k + 1) FDIO_CHUNK_SIZE : Nat) : Int)) := lt_irrefl _
  simp only [write_go]
  rw [if_neg h1, if_neg h2, if_neg h2]
  rw [Int.toNat_natCast]

/-- One full-transfer step of the read loop: a transaction returning
exactly the requested amount, with a matching payload length, copies
that amount and recurses on the remaining bytes. -/
theorem read_go_cons_full (k count : Nat) (r : Int) (n : Nat) (cs : List Nat) (os : List TxnRes) :
    read_go (k + 1) count r n cs
        ({ r := ((min (k + 1) FDIO_CHUNK_SIZE : Nat) : Int),
           datalen := min (k + 1) FDIO_CHUNK_SIZE } :: os) =
      read_go (k + 1 - min (k + 1) FDIO_CHUNK_SIZE)
        (count + min (k + 1) FDIO_CHUNK_SIZE)
        ((min (k + 1) FDIO_CHUNK_SIZE : Nat) : Int) (n + 1)
        (cs ++ [min (k + 1) FDIO_CHUNK_SIZE]) os := by
  have h1 : ¬ (((min (k + 1) FDIO_CHUNK_SIZE : Nat) : Int) < 0) :=
    not_lt.mpr (Int.natCast_nonneg _)
  have h2 : ¬ (((min (k + 1) FDIO_CHUNK_SIZE : Nat) : Int) >
      ((min (k + 1) FDIO_CHUNK_SIZE : Nat) : Int)) := lt_irrefl _
  have hd : (decide (((min (k + 1) FDIO_CHUNK_SIZE : Nat) : Int) >
      ((min (k + 1) FDIO_CHUNK_SIZE : Nat) : Int))) = false := decide_eq_false h2
  simp only [read_go]
  rw [if_neg h1]
  simp only [hd, Bool.or_self]
  rw [if_neg (by decide : ¬ (false = true))]
  rw [Int.toNat_natCast, if_neg h2]

/-- Running the write loop against the full-transfer oracle transfers
everything and issues one transaction per scheduled chunk. -/
theorem write_go_full (len : Nat) :
    ∀ count r n, write_go len count r n (fullOracle len) =
      (if count + len ≠ 0 then ((count + len : Nat) : Int) else r,
        n + (chunkSched len).length) := by
  induction len using Nat.strong_induction_on with
  | _ len ih =>
    intro count r n
    rcases Nat.eq_zero_or_pos len with h0 | hpos
    · subst h0
      simp [fullOracle, chunkSched, write_go, wret]
    · obtain ⟨k, rfl⟩ : ∃ k, len = k + 1 := ⟨len - 1, by omega⟩
      have hstep : chunkSched (k + 1) =
          min (k + 1) FDIO_CHUNK_SIZE ::
            chunkSched ((k + 1) - min (k + 1) FDIO_CHUNK_SIZE) := by
        rw [chunkSched]
        simp
      rw [fullOracle, hstep, List.map_cons, write_go_cons_full]
      have hxle : min (k + 1) FDIO_CHUNK_SIZE ≤ k + 1 := min_le_left _ _
      have hxpos : 0 < min (k + 1) FDIO_CHUNK_SIZE := by
        have hck : 0 < FDIO_CHUNK_SIZE := by decide
        omega
      have ihx := ih ((k + 1) - min (k + 1) FDIO_CHUNK_SIZE) (by omega)
        (count + min (k + 1) FDIO_CHUNK_SIZE)
        ((min (k + 1) FDIO_CHUNK_SIZE : Nat) : Int) (n + 1)
      rw [fullOracle] at ihx
      rw [ihx]
      have he : count + min (k + 1) FDIO_CHUNK_SIZE +
          ((k + 1) - min (k + 1) FDIO_CHUNK_SIZE) = count + (k + 1) := by omega
      rw [he]
      have hne : count + (k + 1) ≠ 0 := by omega
      rw [if_pos hne, if_pos hne]
      simp only [Prod.mk.injEq, List.length_cons]
      exact ⟨trivial, by omega⟩

/-- Running the read loop against the full-transfer oracle transfers
everything, issues one transaction per scheduled chunk and copies exactly
the scheduled chunk sizes. -/
theorem read_go_full (len : Nat) :
    ∀ count r n cs, read_go len count r n cs (fullOracle len) =
      (if count + len ≠ 0 then ((count + len : Nat) : Int) else r,
        n + (chunkSched len).length, cs ++ chunkSched len) := by
  induction len using Nat.strong_induction_on with
  | _ len ih =>
    intro count r n cs
    rcases Nat.eq_zero_or_pos len with h0 | hpos
    · subst h0
      simp [fullOracle, chunkSched, read_go, wret]
    · obtain ⟨k, rfl⟩ : ∃ k, len = k + 1 := ⟨len - 1, by omega⟩
      have hstep : chunkSched (k + 1) =
          min (k + 1) FDIO_CHUNK_SIZE ::
            chunkSched ((k + 1) - min (k + 1) FDIO_CHUNK_SIZE) := by
        rw [chunkSched]
        simp
      rw [fullOracle, hstep, List.map_cons, read_go_cons_full]
      have hxle : min (k + 1) FDIO_CHUNK_SIZE ≤ k + 1 := min_le_left _ _
      have hxpos : 0 < min (k + 1) FDIO_CHUNK_SIZE := by
        have hck : 0 < FDIO_CHUNK_SIZE := by decide
        omega
      have ihx := ih ((k + 1) - min (k + 1) FDIO_CHUNK_SIZE) (by omega)
        (count + min (k + 1) FDIO_CHUNK_SIZE)
        ((min (k + 1) FDIO_CHUNK_SIZE : Nat) : Int) (n + 1)
        (cs ++ [min (k + 1) FDIO_CHUNK_SIZE])
      rw [fullOracle] at ihx
      rw [ihx]
      have he : count + min (k + 1) FDIO_CHUNK_SIZE +
          ((k + 1) - min (k + 1) FDIO_CHUNK_SIZE) = count + (k + 1) := by omega
      rw [he]
      have hne : count + (k + 1) ≠ 0 := by omega
      rw [if_pos hne, if_pos hne]
      simp only [Prod.mk.injEq, List.length_cons, List.append_assoc,
        List.singleton_append]
      exact ⟨trivial, by omega, trivial⟩

/-- C5: over a buffer of `len` bytes the chunked write and read loops
issue exactly the ceiling of `len` over the maximum chunk size many
transactions when every transaction transfers the full requested amount
(transferring all bytes); they stop the moment a transaction transfers
fewer bytes than requested (returning the accumulated count); a failed
transaction stops the loop; and the final return value is the
transferred total whenever it is nonzero, otherwise the last status. -/
theorem chunked_rw_loop :
    (∀ len : Nat, write_common len (fullOracle len) =
        ((len : Int), (len + FDIO_CHUNK_SIZE - 1) / FDIO_CHUNK_SIZE))
  ∧ (∀ len : Nat, read_common len (fullOracle len) =
        ((len : Int), (len + FDIO_CHUNK_SIZE - 1) / FDIO_CHUNK_SIZE, chunkSched len))
  ∧ (∀ (k count : Nat) (r : Int) (n : Nat) (t : TxnRes) (os : List TxnRes),
        0 ≤ t.r → t.r < ((min (k + 1) FDIO_CHUNK_SIZE : Nat) : Int) →
        write_go (k + 1) count r n (t :: os) =
          (wret (count + t.r.toNat) t.r, n + 1))
  ∧ (∀ (k count : Nat) (r : Int) (n : Nat) (cs : List Nat) (t : TxnRes) (os : List TxnRes),
        0 ≤ t.r → t.r ≤ (t.datalen : Int) →
        t.r < ((min (k + 1) FDIO_CHUNK_SIZE : Nat) : Int) →
        read_go (k + 1) count r n cs (t :: os) =
          (wret (count + t.r.toNat) t.r, n + 1, cs ++ [t.r.toNat]))
  ∧ (∀ (k count : Nat) (r : Int) (n : Nat) (t : TxnRes) (os : List TxnRes),
        t.r < 0 →
        write_go (k + 1) count r n (t :: os) = (wret count t.r, n + 1))
  ∧ (∀ (k count : Nat) (r : Int) (n : Nat) (cs : List Nat) (t : TxnRes) (os : List TxnRes),
        t.r < 0 →
        read_go (k + 1) count r n cs (t :: os) = (wret count t.r, n + 1, cs))
  ∧ (∀ (count : Nat) (e : Int), count ≠ 0 → wret count e = (count : Int))
  ∧ (∀ e : Int, wret 0 e = e) := by
  refine ⟨?_, ?_, ?_, ?_, ?_, ?_, ?_, ?_⟩
  · intro len
    rw [write_common, write_go_full len 0 0 0, chunkSched_length]
    rcases Nat.eq_zero_or_pos len with h0 | hpos
    · subst h0
      simp
    · rw [if_pos (by omega : 0 + len ≠ 0)]
      simp
  · intro len
    rw [read_common, read_go_full len 0 0 0 [], chunkSched_length]
    rcases Nat.eq_zero_or_pos len with h0 | hpos
    · subst h0
      simp
    · rw [if_pos (by omega : 0 + len ≠ 0)]
      simp
  · intro k count r n t os h0 hlt
    have hnn : ¬ (t.r < 0) := not_lt.mpr h0
    have hng : ¬ (t.r > ((min (k + 1) FDIO_CHUNK_SIZE : Nat) : Int)) := by omega
    simp only [write_go]
    rw [if_neg hnn, if_neg hng, if_pos hlt]
  · intro k count r n cs t os h0 hdl hlt
    have hnn : ¬ (t.r < 0) := not_lt.mpr h0
    have hd1 : decide (t.r > (t.datalen : Int)) = false := decide_eq_false (by omega)
    have hd2 : decide (t.r > ((min (k + 1) FDIO_CHUNK_SIZE : Nat) : Int)) = false :=
      decide_eq_false (by omega)
    simp only [read_go]
    rw [if_neg hnn]
    simp only [hd1, hd2, Bool.or_self]
    rw [if_neg (by decide : ¬ (false = true)), if_pos hlt]
  · intro k count r n t os h
    simp only [write_go]
    rw [if_pos h]
  · intro k count r n cs t os h
    simp only [read_go]
    rw [if_pos h]
  · intro count e h
    simp [wret, h]
  · intro e
    simp [wret]

/-- Witness for C5 at concrete inputs: a 20000-byte full-transfer write
takes 3 transactions; a short first transfer of 3 of 10 bytes stops at
once with count 3; a failed first read transaction returns its status. -/
theorem chunked_rw_loop_witness :
    write_common 20000 (fullOracle 20000) = ((20000 : Int), 3) ∧
      write_go 10 0 0 0 [{ r := 3, datalen := 3 }] = ((3 : Int), 1) ∧
      read_go 10 0 0 0 [] [{ r := -7, datalen := 0 }] = ((-7 : Int), 1, []) := by
  refine ⟨?_, ?_, ?_⟩
  · have h := chunked_rw_loop.1 20000
    simpa using h
  · have h := chunked_rw_loop.2.2.1 9 0 0 0 { r := 3, datalen := 3 } []
      (by decide) (by decide)
    simpa [wret] using h
  · have h := chunked_rw_loop.2.2.2.2.2.1 9 0 0 0 [] { r := -7, datalen := 0 } []
      (by decide)
    simpa [wret] using h

/-- Every amount the read loop copies out of a reply is bounded by the
maximum chunk size, given that the already-accumulated amounts are. -/
theorem read_go_copies_bound :
    ∀ (os : List TxnRes) (len count : Nat) (r : Int) (n : Nat) (cs : List Nat),
      (∀ c ∈ cs, c ≤ FDIO_CHUNK_SIZE) →
      ∀ c ∈ (read_go len count r n cs os).2.2, c ≤ FDIO_CHUNK_SIZE := by
  intro os
  induction os with
  | nil =>
    intro len count r n cs hcs
    cases len with
    | zero => simpa [read_go] using hcs
    | succ k => simpa [read_go] using hcs
  | cons t os ih =>
    intro len count r n cs hcs
    cases len with
    | zero => simpa [read_go] using hcs
    | succ k =>
      simp only [read_go]
      by_cases h1 : t.r < 0
      · rw [if_pos h1]
        simpa using hcs
      · rw [if_neg h1]
        by_cases h2 : (decide (t.r > (t.datalen : Int)) ||
            decide (t.r > ((min (k + 1) FDIO_CHUNK_SIZE : Nat) : Int))) = true
        · rw [if_pos h2]
          simpa using hcs
        · rw [if_neg h2]
          have hxr : t.r ≤ ((min (k + 1) FDIO_CHUNK_SIZE : Nat) : Int) := by
            simp only [Bool.or_eq_true, decide_eq_true_eq] at h2
            push_neg at h2
            exact h2.2
          have hmin : min (k + 1) FDIO_CHUNK_SIZE ≤ FDIO_CHUNK_SIZE := min_le_right _ _
          have hcC : t.r.toNat ≤ FDIO_CHUNK_SIZE := by omega
          have hcs2 : ∀ c ∈ cs ++ [t.r.toNat], c ≤ FDIO_CHUNK_SIZE := by
            intro c hc
            rcases List.mem_append.mp hc with hc | hc
            · exact hcs c hc
            · simp only [List.mem_singleton] at hc
              omega
          by_cases h3 : t.r < ((min (k + 1) FDIO_CHUNK_SIZE : Nat) : Int)
          · rw [if_pos h3]
            simpa using hcs2
          · rw [if_neg h3]
            exact ih _ _ _ _ _ hcs2

/-- C10: a transaction whose status word exceeds the reply payload
length or the requested chunk amount stops the read loop at once,
yielding the I/O error (or the partial count accumulated so far, via
`wret`) and copying nothing further; and every amount the loop ever
copies from a reply into the output buffer is at most the maximum
chunk size. -/
theorem read_loop_bounds :
    (∀ (k count : Nat) (r : Int) (n : Nat) (cs : List Nat) (t : TxnRes) (os : List TxnRes),
        0 ≤ t.r →
        (t.r > (t.datalen : Int) ∨ t.r > ((min (k + 1) FDIO_CHUNK_SIZE : Nat) : Int)) →
        read_go (k + 1) count r n cs (t :: os) = (wret count ZX_ERR_IO, n + 1, cs))
  ∧ (∀ (len : Nat) (os : List TxnRes) (c : Nat),
        c ∈ (read_common len os).2.2 → c ≤ FDIO_CHUNK_SIZE) := by
  constructor
  · intro k count r n cs t os h0 hbad
    have hnn : ¬ (t.r < 0) := not_lt.mpr h0
    have hcond : (decide (t.r > (t.datalen : Int)) ||
        decide (t.r > ((min (k + 1) FDIO_CHUNK_SIZE : Nat) : Int))) = true := by
      simp only [Bool.or_eq_true, decide_eq_true_eq]
      exact hbad
    simp only [read_go]
    rw [if_neg hnn, if_pos hcond]
  · intro len os c hc
    rw [read_common] at hc
    exact read_go_copies_bound os len 0 0 0 [] (by simp) c hc

/-- Witness for C10 at concrete inputs: a status word of 11 against a
5-byte reply stops a 10-byte read with an I/O error; a 5-byte copy out
of a 5-byte read is within the chunk bound. -/
theorem read_loop_bounds_witness :
    read_go 10 0 0 0 [] [{ r := 11, datalen := 5 }] = ( ZX_ERR_IO, 1, []) ∧
      (5 : Nat) ≤ FDIO_CHUNK_SIZE := by
  constructor
  · have h := read_loop_bounds.1 9 0 0 0 [] { r := 11, datalen := 5 } []
      (by decide) (Or.inl (by decide))
    simpa [wret] using h
  · exact read_loop_bounds.2 5 [{ r := 5, datalen := 5 }] 5 (by decide)

/-- The connection state `zxrio_t` as far as `close` is concerned: the
primary channel handle and the optional secondary event handle. -/
structure zxrio_conn where
  h : Nat
  h2 : Nat
deriving DecidableEq

/-- Transcription of `zxrio_close` (part_001, lines 477-499): one close
transaction, a discard of any reply handles when the transaction did not
fail, then the unconditional close-and-zero of the primary handle and the
conditional close-and-zero of the secondary handle. Returns the
transaction status, the new connection state, the list of connection
handles passed to the close primitive, and the other handles closed
(transaction cleanup and reply discard). -/
def zxrio_close (rio : zxrio_conn) (txid : Nat) (c : CallOut) :
    Int × zxrio_conn × List Nat × List Nat :=
  let msg : zxrio_msg := { op := ZXRIO_CLOSE }
  let res := zxrio_txn txid msg c
  let r := res.1
  let m := res.2.1
  let replyClosed := if 0 ≤ r then discard_handles m.handle m.hcount else []
  let locals := rio.h :: (if rio.h2 > 0 then [rio.h2] else [])
  let conn2 : zxrio_conn := ⟨0, if rio.h2 > 0 then 0 else rio.h2⟩
  (r, conn2, locals, res.2.2 ++ replyClosed)

/-- C6: `zxrio_close` always zeroes both handle fields and closes the
primary handle (and the secondary handle when present), whatever the
close transaction returned; a second call on the resulting state passes
only the canonical invalid handle to the close primitive, so no live
handle is ever closed twice. -/
theorem close_unconditional_cleanup (rio : zxrio_conn) (txid txid2 : Nat) (c c2 : CallOut) :
    ((zxrio_close rio txid c).2.1.h = 0)
  ∧ ((zxrio_close rio txid c).2.1.h2 = 0)
  ∧ rio.h ∈ (zxrio_close rio txid c).2.2.1
  ∧ (rio.h2 ≠ 0 → rio.h2 ∈ (zxrio_close rio txid c).2.2.1)
  ∧ ((zxrio_close (zxrio_close rio txid c).2.1 txid2 c2).2.2.1 = [ZX_HANDLE_INVALID]) := by
  have hst : (zxrio_close rio txid c).2.1 = ⟨0, 0⟩ := by
    by_cases hh : rio.h2 > 0
    · simp [zxrio_close, hh]
    · simp [zxrio_close, hh]
      omega
  refine ⟨?_, ?_, ?_, ?_, ?_⟩
  · rw [hst]
  · rw [hst]
  · simp [zxrio_close]
  · intro hne
    have hh : rio.h2 > 0 := Nat.pos_of_ne_zero hne
    simp [zxrio_close, hh]
  · rw [hst]
    simp [zxrio_close, ZX_HANDLE_INVALID]

/-- Witness for C6 at a concrete input: closing a connection with
handles 3 and 4 passes the secondary handle 4 to the close primitive. -/
theorem close_unconditional_cleanup_witness :
    (4 : Nat) ∈ (zxrio_close ⟨3, 4⟩ 1 { r := 0 }).2.2.1 :=
  (close_unconditional_cleanup ⟨3, 4⟩ 1 1 { r := 0 } { r := 0 }).2.2.2.1 (by decide)

/-- The describe record `zxrio_describe_t` as far as the synchronous open
is concerned: op code, status, object type tag and the auxiliary handle
field. -/
structure zxrio_describe where
  op : Nat := 0
  status : Int := 0
  ty : Nat := 0
  handle : Nat := 0
deriving DecidableEq

/-- Outcome of the `zx_channel_read` of the describe record, supplied as
an oracle: status, the record as read (its handle field written by the
transport when a handle arrived, otherwise whatever was in the buffer),
the actual byte count and the actual received handle count. -/
structure DescribeReadOut where
  r : Int
  info : zxrio_describe := {}
  dsize : Nat := 0
  ahandles : Nat := 0
deriving DecidableEq

/-- Transcription of `zxrio_sync_open_connection` (part_001, lines
502-548). `createR` is the status of the channel-pair creation producing
local endpoint `h` and request handle `c0`; `writeR` is the status of
the one-way request write; `ro` is the describe read. The intervening
`zx_object_wait_one` has no effect on the modelled outputs. Returns the
status, the `*out` handle, the describe record as left for the caller,
and the handles passed to the close primitive. -/
def zxrio_sync_open_connection (createR : Int) (h c0 : Nat) (writeR : Int)
    (ro : DescribeReadOut) : Int × Nat × Option zxrio_describe × List Nat :=
  if createR < 0 then
    (createR, ZX_HANDLE_INVALID, none, [])
  else if writeR < 0 then
    (writeR, ZX_HANDLE_INVALID, none, [c0, h])
  else if ro.r ≠ ZX_OK then
    (ro.r, ZX_HANDLE_INVALID, none, [h])
  else
    let info := if ro.ahandles = 0 then { ro.info with handle := ZX_HANDLE_INVALID }
                else ro.info
    let r : Int := if ro.dsize ≠ ZXRIO_DESCRIBE_SZ ∨ info.op ≠ ZXRIO_ON_OPEN then ZX_ERR_IO
                   else info.status
    if r ≠ ZX_OK then
      (r, ZX_HANDLE_INVALID, some info,
        (if info.handle ≠ ZX_HANDLE_INVALID then [info.handle] else []) ++ [h])
    else
      (r, h, some info, [])

/-- C7: when the describe reply has the wrong size or an op code other
than the on-open marker, the synchronous open returns an I/O error,
yields no handle, and closes both the local endpoint and any auxiliary
handle carried by the record; and whenever the transport reports zero
received handles, the handle field of the record is forced to the canonical
invalid value before anything trusts it. -/
theorem sync_open_failure_cleanup (createR writeR : Int) (h c0 : Nat)
    (ro : DescribeReadOut) (hc : 0 ≤ createR) (hw : 0 ≤ writeR) (hr : ro.r = ZX_OK) :
    ((ro.dsize ≠ ZXRIO_DESCRIBE_SZ ∨ ro.info.op ≠ ZXRIO_ON_OPEN) →
      (zxrio_sync_open_connection createR h c0 writeR ro).1 = ZX_ERR_IO ∧
      (zxrio_sync_open_connection createR h c0 writeR ro).2.1 = ZX_HANDLE_INVALID ∧
      h ∈ (zxrio_sync_open_connection createR h c0 writeR ro).2.2.2 ∧
      (∀ i, (zxrio_sync_open_connection createR h c0 writeR ro).2.2.1 = some i →
        i.handle ≠ ZX_HANDLE_INVALID →
        i.handle ∈ (zxrio_sync_open_connection createR h c0 writeR ro).2.2.2))
  ∧ (ro.ahandles = 0 →
      ∀ i, (zxrio_sync_open_connection createR h c0 writeR ro).2.2.1 = some i →
        i.handle = ZX_HANDLE_INVALID) := by
  have hnc : ¬ (createR < 0) := not_lt.mpr hc
  have hnw : ¬ (writeR < 0) := not_lt.mpr hw
  have hnr : ¬ (ro.r ≠ ZX_OK) := by simp [hr]
  constructor
  · intro hbad
    have hop : (if ro.ahandles = 0 then { ro.info with handle := ZX_HANDLE_INVALID }
        else ro.info).op = ro.info.op := by
      by_cases ha : ro.ahandles = 0 <;> simp [ha]
    have hbad2 : ro.dsize ≠ ZXRIO_DESCRIBE_SZ ∨
        (if ro.ahandles = 0 then { ro.info with handle := ZX_HANDLE_INVALID }
          else ro.info).op ≠ ZXRIO_ON_OPEN := by
      rw [hop]
      exact hbad
    have heio : ¬ (( ZX_ERR_IO : Int) = ZX_OK) := by decide
    simp only [zxrio_sync_open_connection, hnc, hnw, hnr, if_false, if_pos hbad2]
    rw [if_pos (by simpa using heio : ¬ (( ZX_ERR_IO : Int) = ZX_OK) )]
    refine ⟨rfl, rfl, ?_, ?_⟩
    · simp
    · intro i hi hne
      simp only [Option.some.injEq] at hi
      subst hi
      simp [hne]
  · intro ha i hi
    simp only [zxrio_sync_open_connection, hnc, hnw, hnr, if_false, ha, if_true] at hi
    by_cases hbad : ro.dsize ≠ ZXRIO_DESCRIBE_SZ ∨
        ({ ro.info with handle := ZX_HANDLE_INVALID } : zxrio_describe).op ≠ ZXRIO_ON_OPEN
    · rw [if_pos hbad] at hi
      rw [if_pos (by decide : ¬ (( ZX_ERR_IO : Int) = ZX_OK))] at hi
      simp only [Option.some.injEq] at hi
      subst hi
      rfl
    · rw [if_neg hbad] at hi
      by_cases hs : ({ ro.info with handle := ZX_HANDLE_INVALID } : zxrio_describe).status ≠ ZX_OK
      · rw [if_pos hs] at hi
        simp only [Option.some.injEq] at hi
        subst hi
        rfl
      · rw [if_neg hs] at hi
        simp only [Option.some.injEq] at hi
        subst hi
        rfl

/-- Describe-read oracle for the C7 witness: a successful read of a
correctly sized record whose op code is not the on-open marker, carrying
one auxiliary handle. -/
def syncOpenWit : DescribeReadOut :=
  { r := 0, info := { op := 9, status := 0, ty := 0, handle := 8 },
    dsize := ZXRIO_DESCRIBE_SZ, ahandles := 1 }

/-- Witness for C7 at a concrete input: an op-code mismatch yields the
I/O error and closes both the local endpoint 5 and the returned handle 8. -/
theorem sync_open_failure_cleanup_witness :
    (zxrio_sync_open_connection 0 5 6 0 syncOpenWit).1 = ZX_ERR_IO ∧
      (5 : Nat) ∈ (zxrio_sync_open_connection 0 5 6 0 syncOpenWit).2.2.2 ∧
      (8 : Nat) ∈ (zxrio_sync_open_connection 0 5 6 0 syncOpenWit).2.2.2 := by
  have hg := (sync_open_failure_cleanup 0 0 5 6 syncOpenWit (by decide) (by decide)
    (by decide)).1 (Or.inr (by decide))
  refine ⟨hg.1, hg.2.2.1, ?_⟩
  have h8 := hg.2.2.2 { op := 9, status := 0, ty := 0, handle := 8 } (by decide) (by decide)
  exact h8

/-- Transcription of `zxrio_connect` (part_001, lines 552-582): path
length check against the hard maximum, rejection of the describe flag in
this pipelined mode, construction of the one-way message carrying the
connection handle inline, and the write whose status is `w`. No reply is
ever read: the outputs are fully determined by the inputs to the write.
Returns the status, the handles passed to the close primitive, and the
one-way message handed to the transport (which takes ownership of the
inline handle) when the write succeeded. -/
def zxrio_connect (w : Int) (cnxn op flags mode : Nat) (name : List Nat) :
    Int × List Nat × Option zxrio_msg :=
  let len := name.length
  if len ≥ PATH_MAX then
    (ZX_ERR_BAD_PATH, [cnxn], none)
  else if Nat.land flags ZX_FS_FLAG_DESCRIBE ≠ 0 then
    (ZX_ERR_INVALID_ARGS, [cnxn], none)
  else
    let msg : zxrio_msg :=
      { op := op, datalen := len, arg := (flags : Int), arg2 := (mode : Int),
        hcount := 1, handle := [cnxn], data := name }
    if w < 0 then
      (w, [cnxn], none)
    else
      (ZX_OK, [], some msg)

/-- C8: the pipelined connect consumes the supplied connection handle on
every path — it is closed when the path length reaches the maximum, when
the describe flag is set, and when the channel write fails, and on
success it travels to the peer inside the one-way message as its single
inline handle. The function reads no reply. -/
theorem connect_consumes_handle (w : Int) (cnxn op flags mode : Nat) (name : List Nat) :
    (cnxn ∈ (zxrio_connect w cnxn op flags mode name).2.1 ∨
      (∃ m, (zxrio_connect w cnxn op flags mode name).2.2 = some m ∧
        m.handle = [cnxn] ∧ m.hcount = 1))
  ∧ (name.length ≥ PATH_MAX →
      (zxrio_connect w cnxn op flags mode name).1 = ZX_ERR_BAD_PATH ∧
      (zxrio_connect w cnxn op flags mode name).2.1 = [cnxn])
  ∧ (name.length < PATH_MAX → Nat.land flags ZX_FS_FLAG_DESCRIBE ≠ 0 →
      (zxrio_connect w cnxn op flags mode name).1 = ZX_ERR_INVALID_ARGS ∧
      (zxrio_connect w cnxn op flags mode name).2.1 = [cnxn])
  ∧ (name.length < PATH_MAX → Nat.land flags ZX_FS_FLAG_DESCRIBE = 0 → w < 0 →
      (zxrio_connect w cnxn op flags mode name).1 = w ∧
      (zxrio_connect w cnxn op flags mode name).2.1 = [cnxn])
  ∧ (name.length < PATH_MAX → Nat.land flags ZX_FS_FLAG_DESCRIBE = 0 → 0 ≤ w →
      (zxrio_connect w cnxn op flags mode name).1 = ZX_OK ∧
      (zxrio_connect w cnxn op flags mode name).2.1 = [] ∧
      (zxrio_connect w cnxn op flags mode name).2.2 =
        some { op := op, datalen := name.length, arg := (flags : Int),
               arg2 := (mode : Int), hcount := 1, handle := [cnxn], data := name }) := by
  refine ⟨?_, ?_, ?_, ?_, ?_⟩
  · by_cases h1 : name.length ≥ PATH_MAX
    · left
      simp [zxrio_connect, h1]
    · by_cases h2 : Nat.land flags ZX_FS_FLAG_DESCRIBE ≠ 0
      · left
        simp [zxrio_connect, h1, h2]
      · by_cases h3 : w < 0
        · left
          simp [zxrio_connect, h1, h2, h3]
        · right
          refine ⟨{ op := op, datalen := name.length, arg := (flags : Int),
                    arg2 := (mode : Int), hcount := 1, handle := [cnxn], data := name },
                  ?_, rfl, rfl⟩
          simp [zxrio_connect, h1, h2, h3]
  · intro h1
    simp [zxrio_connect, h1]
  · intro h1 h2
    have h1n : ¬ (name.length ≥ PATH_MAX) := not_le.mpr h1
    simp [zxrio_connect, h1n, h2]
  · intro h1 h2 h3
    have h1n : ¬ (name.length ≥ PATH_MAX) := not_le.mpr h1
    simp [zxrio_connect, h1n, h2, h3]
  · intro h1 h2 h3
    have h1n : ¬ (name.length ≥ PATH_MAX) := not_le.mpr h1
    have h3n : ¬ (w < 0) := not_lt.mpr h3
    simp [zxrio_connect, h1n, h2, h3n]

/-- Witness for C8 at a concrete input: requesting a describe on the
pipelined path closes the supplied handle 9 and fails with the
invalid-argument error. -/
theorem connect_consumes_handle_witness :
    (zxrio_connect 0 9 3 ZX_FS_FLAG_DESCRIBE 493 []).1 = ZX_ERR_INVALID_ARGS ∧
      (zxrio_connect 0 9 3 ZX_FS_FLAG_DESCRIBE 493 []).2.1 = [9] :=
  (connect_consumes_handle 0 9 3 ZX_FS_FLAG_DESCRIBE 493 []).2.2.1
    (by decide) (by decide)

/-- Message built by `zxrio_ioctl` before the transaction (part_001,
lines 274-315): header fields from the lengths and the ioctl op word,
input bytes as the payload, and for the set-handle kinds the handle
values read out of the input buffer (`inH` is the handle view of that
buffer). -/
def ioctl_msg (op : Nat) (inData : List Nat) (inH : List Nat) (out_len : Nat) : zxrio_msg :=
  let base : zxrio_msg :=
    { op := ZXRIO_IOCTL, datalen := inData.length, arg := (out_len : Int),
      arg2 := (op : Int), data := inData }
  if IOCTL_KIND op = IOCTL_KIND_SET_HANDLE then
    { base with op := ZXRIO_IOCTL_1H, hcount := 1, handle := inH.take 1 }
  else if IOCTL_KIND op = IOCTL_KIND_SET_TWO_HANDLES then
    { base with op := ZXRIO_IOCTL_2H, hcount := 2, handle := inH.take 2 }
  else base

/-- Transcription of `zxrio_ioctl` (part_001, lines 263-360): length and
kind pre-checks, one transaction, then the kind-directed demultiplexing
of the reply. Returns the status, the payload bytes copied to the output
buffer, the handle slots written to the output buffer, and the handles
passed to the close primitive (transaction cleanup plus surplus reply
handles beyond what the kind expects). -/
def zxrio_ioctl (op : Nat) (inData : List Nat) (inH : List Nat) (out_len : Nat)
    (txid : Nat) (c : CallOut) : Int × List Nat × List Nat × List Nat :=
  if inData.length > FDIO_IOCTL_MAX_INPUT || out_len > FDIO_CHUNK_SIZE then
    (ZX_ERR_INVALID_ARGS, [], [], [])
  else if IOCTL_KIND op = IOCTL_KIND_GET_HANDLE ∧ out_len < SIZEOF_ZX_HANDLE then
    (ZX_ERR_INVALID_ARGS, [], [], [])
  else if IOCTL_KIND op = IOCTL_KIND_GET_TWO_HANDLES ∧ out_len < 2 * SIZEOF_ZX_HANDLE then
    (ZX_ERR_INVALID_ARGS, [], [], [])
  else if IOCTL_KIND op = IOCTL_KIND_GET_THREE_HANDLES ∧ out_len < 3 * SIZEOF_ZX_HANDLE then
    (ZX_ERR_INVALID_ARGS, [], [], [])
  else if IOCTL_KIND op = IOCTL_KIND_SET_HANDLE ∧ inData.length < SIZEOF_ZX_HANDLE then
    (ZX_ERR_INVALID_ARGS, [], [], [])
  else if IOCTL_KIND op = IOCTL_KIND_SET_TWO_HANDLES ∧ inData.length < 2 * SIZEOF_ZX_HANDLE then
    (ZX_ERR_INVALID_ARGS, [], [], [])
  else
    let res := zxrio_txn txid (ioctl_msg op inData inH out_len) c
    let r := res.1
    let m := res.2.1
    if r < 0 then
      (r, [], [], res.2.2)
    else
      let copy_len := min m.datalen out_len
      let outData := m.data.take copy_len
      let handles :=
        if IOCTL_KIND op = IOCTL_KIND_GET_HANDLE then (if m.hcount > 0 then 1 else 0)
        else if IOCTL_KIND op = IOCTL_KIND_GET_TWO_HANDLES then min m.hcount 2
        else if IOCTL_KIND op = IOCTL_KIND_GET_THREE_HANDLES then min m.hcount 3
        else 0
      let slots :=
        if IOCTL_KIND op = IOCTL_KIND_GET_HANDLE then
          (if m.hcount > 0 then m.handle.take 1 else [0])
        else if IOCTL_KIND op = IOCTL_KIND_GET_TWO_HANDLES then
          m.handle.take handles ++ List.replicate (2 - handles) 0
        else if IOCTL_KIND op = IOCTL_KIND_GET_THREE_HANDLES then
          m.handle.take handles ++ List.replicate (3 - handles) 0
        else []
      let surplus := (discard_handles m.handle m.hcount).drop handles
      (r, outData, slots, res.2.2 ++ surplus)

/-- C9: an ioctl of the get-two-handles kind whose transaction succeeds
with a reply carrying exactly one handle succeeds with that status,
writes the single handle to the first output slot, zero-fills the second
slot, and closes no surplus handle (there is none beyond the two the kind
expects). -/
theorem ioctl_two_handles_single_reply (op : Nat) (inData inH : List Nat)
    (out_len txid : Nat) (c : CallOut) (r : Int) (m : zxrio_msg) (cl : List Nat) (h0 : Nat)
    (hk : IOCTL_KIND op = IOCTL_KIND_GET_TWO_HANDLES)
    (hin : inData.length ≤ FDIO_IOCTL_MAX_INPUT)
    (hout1 : 2 * SIZEOF_ZX_HANDLE ≤ out_len)
    (hout2 : out_len ≤ FDIO_CHUNK_SIZE)
    (htxn : zxrio_txn txid (ioctl_msg op inData inH out_len) c = (r, m, cl))
    (hr : 0 ≤ r)
    (hhc : m.hcount = 1)
    (hh : m.handle.take 1 = [h0]) :
    zxrio_ioctl op inData inH out_len txid c =
      (r, m.data.take (min m.datalen out_len), [h0, 0], cl) := by
  have hpre : ¬ (inData.length > FDIO_IOCTL_MAX_INPUT ∨ out_len > FDIO_CHUNK_SIZE) := by
    push_neg
    exact ⟨hin, hout2⟩
  have hpreb : (decide (inData.length > FDIO_IOCTL_MAX_INPUT) ||
      decide (out_len > FDIO_CHUNK_SIZE)) = false := by
    push_neg at hpre
    simp [not_lt.mpr hpre.1, not_lt.mpr hpre.2]
  have hk1 : ¬ (IOCTL_KIND op = IOCTL_KIND_GET_HANDLE ∧ out_len < SIZEOF_ZX_HANDLE) := by
    rw [hk]
    rintro ⟨hx, -⟩
    exact absurd hx (by decide)
  have hk2 : ¬ (IOCTL_KIND op = IOCTL_KIND_GET_TWO_HANDLES ∧
      out_len < 2 * SIZEOF_ZX_HANDLE) := by
    rintro ⟨-, hx⟩
    omega
  have hk3 : ¬ (IOCTL_KIND op = IOCTL_KIND_GET_THREE_HANDLES ∧
      out_len < 3 * SIZEOF_ZX_HANDLE) := by
    rw [hk]
    rintro ⟨hx, -⟩
    exact absurd hx (by decide)
  have hk4 : ¬ (IOCTL_KIND op = IOCTL_KIND_SET_HANDLE ∧
      inData.length < SIZEOF_ZX_HANDLE) := by
    rw [hk]
    rintro ⟨hx, -⟩
    exact absurd hx (by decide)
  have hk5 : ¬ (IOCTL_KIND op = IOCTL_KIND_SET_TWO_HANDLES ∧
      inData.length < 2 * SIZEOF_ZX_HANDLE) := by
    rw [hk]
    rintro ⟨hx, -⟩
    exact absurd hx (by decide)
  have hkg : ¬ (IOCTL_KIND op = IOCTL_KIND_GET_HANDLE) := by
    rw [hk]
    decide
  have hnr : ¬ (r < 0) := not_lt.mpr hr
  simp only [zxrio_ioctl, hpreb, Bool.false_eq_true, if_false,
    if_neg hk1, if_neg hk2, if_neg hk3, if_neg hk4, if_neg hk5, htxn]
  simp only [if_neg hnr, if_neg hkg, if_pos hk, hhc]
  have hmin : min 1 2 = 1 := by decide
  rw [hmin, hh]
  simp [discard_handles, hh]

/-- Call oracle for the C9 witness: a successful, well-framed status
reply carrying exactly one handle (33). -/
def ioctlWitCall : CallOut :=
  { r := 0, reply := { op := ZXRIO_STATUS, arg := 4, handle := [33] },
    dsize := ZXRIO_HDR_SZ, ahcount := 1 }

/-- Witness for C9 at a concrete input: a get-two-handles ioctl whose
reply carries one handle succeeds, writes handle 33 to the first slot
and zero to the second, and closes nothing. -/
theorem ioctl_two_handles_single_reply_witness :
    zxrio_ioctl 2097152 [] [] 8 1 ioctlWitCall = (4, [], [33, 0], []) := by
  have h := ioctl_two_handles_single_reply 2097152 [] [] 8 1 ioctlWitCall 4
    { ioctlWitCall.reply with hcount := 1 } [] 33
    (by decide) (by decide) (by decide) (by decide) (by decide) (by decide)
    (by decide) (by decide)
  simpa using h
